import Mathlib

/-!
Shallow embedding of the inventory application's routes (src/routes.py) at the
level of its persistent state: products, categories, suppliers and the
transaction ledger.  Machine-level concerns (HTTP, sessions, templates, CSV
syntax) are elided; each route handler's state-changing POST branch is
modelled as a pure function from the state and the submitted form fields to a
result code and the committed state.  Python ints are `Int`/`Nat`, prices
(floats in the source, round-tripped exactly through text) are `Rat`,
timestamps are seconds-since-epoch as `Nat`.
-/

/-- Row of the `product` table (models.Product as used by routes.py). -/
structure Product where
  id : Nat
  name : String
  sku : String
  description : String
  purchase_price : Rat
  selling_price : Rat
  quantity : Int
  reorder_level : Int
  category_id : Option Nat
  supplier_id : Option Nat
  created_at : Nat
deriving Repr, DecidableEq

/-- Row of the `category` table. -/
structure Category where
  id : Nat
  name : String
  description : String
deriving Repr, DecidableEq

/-- Row of the `supplier` table. -/
structure Supplier where
  id : Nat
  name : String
  contact_name : String
  email : String
  phone : String
  address : String
deriving Repr, DecidableEq

/-- Row of the `transaction` ledger table.  `user_id` is nullable ("System"
when absent). -/
structure Txn where
  product_id : Nat
  type : String
  quantity : Int
  notes : String
  user_id : Option Nat
  created_at : Nat
deriving Repr, DecidableEq

/-- The committed database state.  The `next*Id` counters model the
autoincrementing primary keys. -/
structure State where
  products : List Product
  categories : List Category
  suppliers : List Supplier
  transactions : List Txn
  nextProductId : Nat
  nextCategoryId : Nat
  nextSupplierId : Nat
deriving Repr, DecidableEq

/-- The empty database. -/
def emptyState : State := ⟨[], [], [], [], 1, 1, 1⟩

/-- `Product.query.get(id)`: first product with the given primary key. -/
def getProduct (st : State) (id : Nat) : Option Product :=
  st.products.find? (fun p => p.id == id)

/-- Replace the first product with the given id (ORM mutation of the row
fetched by primary key). -/
def replaceFirst (id : Nat) (f : Product → Product) : List Product → List Product
  | [] => []
  | p :: ps => if p.id == id then f p :: ps else p :: replaceFirst id f ps

/-- Quantity of the product with the given id, when it exists. -/
def stockOf (st : State) (id : Nat) : Option Int :=
  (getProduct st id).map (fun p => p.quantity)

/-- Number of ledger rows referencing the given product. -/
def txCountFor (st : State) (pid : Nat) : Nat :=
  (st.transactions.filter (fun t => t.product_id == pid)).length

/-- Outcome of the `update_stock` route (flash category on each branch). -/
inductive StockResult where
  | notFound
  | invalidQuantity
  | insufficientStock
  | ok
deriving Repr, DecidableEq

/-- POST branch of `update_stock` (src/routes.py lines 266-301): validates the
quantity, guards a `sale` against the available stock, otherwise adjusts the
product quantity (`purchase` adds, anything else subtracts) and appends one
ledger row whose type is `purchase` exactly when the action is `purchase` and
`sale` otherwise. -/
def update_stock (st : State) (id : Nat) (action : String) (quantity : Int)
    (notes : String) (userId : Option Nat) (now : Nat) : StockResult × State :=
  match getProduct st id with
  | none => (.notFound, st)
  | some product =>
    if quantity ≤ 0 then
      (.invalidQuantity, st)
    else if action = "sale" ∧ product.quantity < quantity then
      (.insufficientStock, st)
    else
      let transaction_type := if action = "purchase" then "purchase" else "sale"
      let delta := if action = "purchase" then quantity else -quantity
      (.ok,
        { st with
          products := replaceFirst id (fun p => { p with quantity := p.quantity + delta }) st.products,
          transactions := st.transactions ++
            [⟨product.id, transaction_type, quantity, notes, userId, now⟩] })

/-- Outcome of the `add_product` route. -/
inductive AddResult where
  | duplicateSKU
  | ok
deriving Repr, DecidableEq

/-- POST branch of `add_product` (src/routes.py lines 153-204): rejects a
duplicate SKU, otherwise inserts the product and, when the initial quantity is
positive, one `purchase` ledger row tagged "Initial stock". -/
def add_product (st : State) (name sku description : String)
    (purchase_price selling_price : Rat) (quantity reorder_level : Int)
    (category_id supplier_id : Option Nat) (userId : Option Nat) (now : Nat) :
    AddResult × State :=
  if st.products.any (fun p => p.sku == sku) then
    (.duplicateSKU, st)
  else
    let product : Product :=
      ⟨st.nextProductId, name, sku, description, purchase_price, selling_price,
        quantity, reorder_level, category_id, supplier_id, now⟩
    let txs := if 0 < quantity then
        [⟨product.id, "purchase", quantity, "Initial stock", userId, now⟩]
      else ([] : List Txn)
    (.ok,
      { st with
        products := st.products ++ [product],
        transactions := st.transactions ++ txs,
        nextProductId := st.nextProductId + 1 })

/-- Form fields submitted to `edit_product`. -/
structure ProductForm where
  name : String
  sku : String
  description : String
  purchase_price : Rat
  selling_price : Rat
  reorder_level : Int
  category_id : Option Nat
  supplier_id : Option Nat
deriving Repr, DecidableEq

/-- Outcome of the `edit_product` route. -/
inductive EditResult where
  | notFound
  | duplicateSKU
  | ok
deriving Repr, DecidableEq

/-- POST branch of `edit_product` (src/routes.py lines 207-248).  The source
assigns `product.name` before the duplicate-SKU check, but on the
duplicate-SKU path nothing is committed and the request-scoped session is
discarded, so the committed state is unchanged there; on the success path all
form fields are committed. -/
def edit_product (st : State) (id : Nat) (form : ProductForm) : EditResult × State :=
  match getProduct st id with
  | none => (.notFound, st)
  | some product =>
    if form.sku ≠ product.sku ∧ st.products.any (fun p => p.sku == form.sku) then
      (.duplicateSKU, st)
    else
      (.ok,
        { st with
          products := replaceFirst id (fun p =>
            { p with
              name := form.name, sku := form.sku, description := form.description,
              purchase_price := form.purchase_price,
              selling_price := form.selling_price,
              reorder_level := form.reorder_level,
              category_id := form.category_id,
              supplier_id := form.supplier_id }) st.products })

/-- Outcome of the `add_category` route. -/
inductive NameResult where
  | duplicateName
  | ok
deriving Repr, DecidableEq

/-- POST branch of `add_category` (src/routes.py lines 321-336): rejects a
duplicate name, otherwise inserts the category. -/
def add_category (st : State) (name description : String) : NameResult × State :=
  if st.categories.any (fun c => c.name == name) then
    (.duplicateName, st)
  else
    (.ok,
      { st with
        categories := st.categories ++ [⟨st.nextCategoryId, name, description⟩],
        nextCategoryId := st.nextCategoryId + 1 })

/-- POST branch of `add_supplier` (src/routes.py lines 384-398): inserts the
supplier unconditionally; the source performs no duplicate-name check. -/
def add_supplier (st : State) (name contact_name email phone address : String) : State :=
  { st with
    suppliers := st.suppliers ++
      [⟨st.nextSupplierId, name, contact_name, email, phone, address⟩],
    nextSupplierId := st.nextSupplierId + 1 }

/-- `Category.query.get(id)`: first category with the given primary key. -/
def getCategory (st : State) (id : Nat) : Option Category :=
  st.categories.find? (fun c => c.id == id)

/-- Replace the first category with the given id (ORM mutation of the row
fetched by primary key). -/
def replaceFirstCat (id : Nat) (f : Category → Category) : List Category → List Category
  | [] => []
  | c :: cs => if c.id == id then f c :: cs else c :: replaceFirstCat id f cs

/-- Outcome of the `edit_category` route. -/
inductive CatEditResult where
  | notFound
  | duplicateName
  | ok
deriving Repr, DecidableEq

/-- POST branch of `edit_category` (src/routes.py lines 339-355): a rename to
a name carried by an existing category is rejected before anything is
written; otherwise the submitted name and description are committed. -/
def edit_category (st : State) (id : Nat) (name description : String) :
    CatEditResult × State :=
  match getCategory st id with
  | none => (.notFound, st)
  | some category =>
    if name ≠ category.name ∧ st.categories.any (fun c => c.name == name) then
      (.duplicateName, st)
    else
      (.ok,
        { st with
          categories := replaceFirstCat id
            (fun c => { c with name := name, description := description })
            st.categories })

/-- Case-insensitive substring test, modelling `column.ilike(f*%{s}%*)`.
`String.splitOn` yields at least two pieces exactly when the pattern occurs. -/
def containsCI (pat s : String) : Bool :=
  2 ≤ (s.toLower.splitOn pat.toLower).length

/-- The sortable attributes of the `Product` model; `getattr(Product, sort_by,
Product.name)` falls back to the name column for any other string. -/
def productFields : List String :=
  ["id", "name", "sku", "description", "purchase_price", "selling_price",
   "quantity", "reorder_level", "category_id", "supplier_id", "created_at"]

/-- Lexicographic code-point order on strings (executable model of the
database's text ordering). -/
def strLeAux : List Char → List Char → Bool
  | [], _ => true
  | _ :: _, [] => false
  | a :: as, b :: bs =>
    if a.val < b.val then true
    else if b.val < a.val then false
    else strLeAux as bs

/-- Lexicographic code-point order on strings. -/
def strLe (a b : String) : Bool := strLeAux a.data b.data

/-- SQL ordering of nullable integer columns: NULL sorts first. -/
def optNatLe (a b : Option Nat) : Bool :=
  match a, b with
  | none, _ => true
  | some _, none => false
  | some x, some y => x ≤ y

/-- Comparison key selected by `getattr(Product, sort_by, Product.name)`:
one arm per Product column, defaulting to the name column. -/
def keyLe (field : String) (a b : Product) : Bool :=
  if field = "id" then a.id ≤ b.id
  else if field = "sku" then strLe a.sku b.sku
  else if field = "description" then strLe a.description b.description
  else if field = "purchase_price" then a.purchase_price ≤ b.purchase_price
  else if field = "selling_price" then a.selling_price ≤ b.selling_price
  else if field = "quantity" then a.quantity ≤ b.quantity
  else if field = "reorder_level" then a.reorder_level ≤ b.reorder_level
  else if field = "category_id" then optNatLe a.category_id b.category_id
  else if field = "supplier_id" then optNatLe a.supplier_id b.supplier_id
  else if field = "created_at" then a.created_at ≤ b.created_at
  else strLe a.name b.name

/-- Stable sort of products by a boolean comparator. -/
def insertLe (le : Product → Product → Bool) (a : Product) : List Product → List Product
  | [] => [a]
  | b :: bs => if le a b then a :: b :: bs else b :: insertLe le a bs

/-- Insertion sort for product lists (the model of `query.order_by`). -/
def sortByLe (le : Product → Product → Bool) : List Product → List Product
  | [] => []
  | a :: as => insertLe le a (sortByLe le as)

/-- The `products` listing route (src/routes.py lines 114-150): free-text
filter on name or SKU, optional category filter, then ordering by the column
named by `sort` (`order_by(col.desc())` when `order == 'desc'`, ascending
otherwise). -/
def productsList (st : State) (search : String) (category_id : Option Nat)
    (sort_by : String) (order : String) : List Product :=
  let l1 := if search = "" then st.products
    else st.products.filter (fun p => containsCI search p.name || containsCI search p.sku)
  let l2 := match category_id with
    | none => l1
    | some cid => l1.filter (fun p => p.category_id == some cid)
  if order = "desc" then sortByLe (fun a b => keyLe sort_by b a) l2
  else sortByLe (fun a b => keyLe sort_by a b) l2

/-- Calendar day of a timestamp (`func.date`), as a day index. -/
def dateOf (ts : Nat) : Nat := ts / 86400

/-- Result of the `dashboard_stats` endpoint; labels carried as day indices
(the `'%b %d'` formatting is presentation only). -/
structure DashStats where
  labels : List Nat
  purchases : List Int
  sales : List Int
deriving Repr, DecidableEq

/-- Per-day total behind `purchase_dict`/`sale_dict`: the summed quantity of
ledger rows of the given type, not older than the window start, whose calendar
day is `d` (an absent group reads as 0). -/
def totalFor (txs : List Txn) (ttype : String) (start : Nat) (d : Nat) : Int :=
  ((txs.filter (fun t => t.type == ttype && (start ≤ t.created_at && dateOf t.created_at == d))).map
    (fun t => t.quantity)).sum

/-- The `dashboard_stats` endpoint (src/routes.py lines 650-691):
`start = now - 30 days`; for `i` in `0..29` the label is the calendar day of
`start + i days` and the purchase/sale entries are the per-day totals looked
up for that day. -/
def dashboard_stats (now : Nat) (st : State) : DashStats :=
  let start := now - 30 * 86400
  let days := (List.range 30).map (fun i => dateOf (start + i * 86400))
  { labels := days,
    purchases := days.map (fun d => totalFor st.transactions "purchase" start d),
    sales := days.map (fun d => totalFor st.transactions "sale" start d) }

/-- One data row of the product CSV, already split into typed cells.  The
exported `ID` and `Created At` columns are omitted: the importer never reads
them.  CSV quoting and the Capitalized/lower_snake header aliasing are textual
concerns outside this embedding. -/
structure Row where
  sku : String
  name : String
  description : String
  category : String
  supplier : String
  purchase_price : Rat
  selling_price : Rat
  quantity : Int
  reorder_level : Int
deriving Repr, DecidableEq

/-- Running outcome of an import: the counters, the per-row error messages and
the session state. -/
structure ImportOutcome where
  imported : Nat
  skipped : Nat
  errors : List String
  state : State
deriving Repr, DecidableEq

/-- Whitespace test for the model of Python's `str.strip`. -/
def isSpace (c : Char) : Bool :=
  c = ' ' || c = '\t' || c = '\n' || c = '\r'

/-- Remove leading and trailing whitespace from a character list. -/
def stripChars (l : List Char) : List Char :=
  ((l.dropWhile isSpace).reverse.dropWhile isSpace).reverse

/-- Model of Python's `str.strip()`. -/
def strip (s : String) : String := ⟨stripChars s.data⟩

/-- Duplicate-SKU message collected by the importer. -/
def dupMsg (sku : String) : String := "SKU already exists: " ++ sku

/-- `Category.query.filter_by(name=...)` followed by add-and-flush when
absent: resolve the category id, creating the category on the fly. -/
def upsertCategory (st : State) (cname : String) : Option Nat × State :=
  if cname = "" then (none, st)
  else
    match st.categories.find? (fun c => c.name == cname) with
    | some c => (some c.id, st)
    | none =>
      (some st.nextCategoryId,
        { st with
          categories := st.categories ++ [⟨st.nextCategoryId, cname, ""⟩],
          nextCategoryId := st.nextCategoryId + 1 })

/-- Same upsert-by-name for suppliers. -/
def upsertSupplier (st : State) (sname : String) : Option Nat × State :=
  if sname = "" then (none, st)
  else
    match st.suppliers.find? (fun s => s.name == sname) with
    | some s => (some s.id, st)
    | none =>
      (some st.nextSupplierId,
        { st with
          suppliers := st.suppliers ++
            [⟨st.nextSupplierId, sname, "", "", "", ""⟩],
          nextSupplierId := st.nextSupplierId + 1 })

/-- One iteration of the import loop (src/routes.py lines 580-632): skip
blank-SKU rows silently, record duplicate SKUs, skip blank-Name rows silently,
upsert the named category and supplier, then insert the product. -/
def importRow (acc : ImportOutcome) (row : Row) : ImportOutcome :=
  let st := acc.state
  let sku := strip row.sku
  if sku = "" then
    { acc with skipped := acc.skipped + 1 }
  else if st.products.any (fun p => p.sku == sku) then
    { acc with skipped := acc.skipped + 1, errors := acc.errors ++ [dupMsg sku] }
  else
    let name := strip row.name
    if name = "" then
      { acc with skipped := acc.skipped + 1 }
    else
      let cat := upsertCategory st (strip row.category)
      let sup := upsertSupplier cat.2 (strip row.supplier)
      let st2 := sup.2
      let product : Product :=
        ⟨st2.nextProductId, name, sku, row.description, row.purchase_price,
          row.selling_price, row.quantity, row.reorder_level, cat.1, sup.1, 0⟩
      { imported := acc.imported + 1, skipped := acc.skipped, errors := acc.errors,
        state := { st2 with
          products := st2.products ++ [product],
          nextProductId := st2.nextProductId + 1 } }

/-- The `import_products` route's row loop over a parsed file. -/
def import_products (st : State) (rows : List Row) : ImportOutcome :=
  rows.foldl importRow ⟨0, 0, [], st⟩

/-- Resolve `p.category.name if p.category else ""` for export. -/
def categoryNameOf (st : State) (cid : Option Nat) : String :=
  match cid with
  | none => ""
  | some c =>
    match st.categories.find? (fun cat => cat.id == c) with
    | some cat => cat.name
    | none => ""

/-- Resolve `p.supplier.name if p.supplier else ""` for export. -/
def supplierNameOf (st : State) (sid : Option Nat) : String :=
  match sid with
  | none => ""
  | some s =>
    match st.suppliers.find? (fun sup => sup.id == s) with
    | some sup => sup.name
    | none => ""

/-- The CSV cells written for one product by `export_products`. -/
def rowOf (st : State) (p : Product) : Row :=
  { sku := p.sku, name := p.name, description := p.description,
    category := categoryNameOf st p.category_id,
    supplier := supplierNameOf st p.supplier_id,
    purchase_price := p.purchase_price, selling_price := p.selling_price,
    quantity := p.quantity, reorder_level := p.reorder_level }

/-- The `export_products` route (src/routes.py lines 484-514): all products
ordered by name, one row each. -/
def export_products (st : State) : List Row :=
  (sortByLe (fun a b => strLe a.name b.name) st.products).map (rowOf st)

/-- Projection of a product to the cells the round-trip claim compares. -/
def skuInfo (p : Product) : String × Int × Rat × Rat :=
  (p.sku, p.quantity, p.purchase_price, p.selling_price)

/-- Quantity and prices of the product carrying a given SKU, when present. -/
def skuView (st : State) (s : String) : Option (Int × Rat × Rat) :=
  (st.products.find? (fun p => p.sku == s)).map
    (fun p => (p.quantity, p.purchase_price, p.selling_price))

/-- One recordMovement request: the form fields of an `update_stock` POST. -/
structure Move where
  type : String
  quantity : Int
  notes : String
  user_id : Option Nat
  created_at : Nat
deriving Repr, DecidableEq

/-- Committed state after one `update_stock` POST. -/
def applyMove (pid : Nat) (st : State) (m : Move) : State :=
  (update_stock st pid m.type m.quantity m.notes m.user_id m.created_at).2

/-- Committed state after a sequence of `update_stock` POSTs on one product. -/
def applyMoves (st : State) (pid : Nat) (moves : List Move) : State :=
  moves.foldl (applyMove pid) st

/-- Every call in the sequence succeeds: the product exists, the type is
`purchase` or `sale`, the quantity is positive, and a `sale` never exceeds the
stock at its moment. -/
def validMovesB (st : State) (pid : Nat) : List Move → Bool
  | [] => true
  | m :: ms =>
    match getProduct st pid with
    | none => false
    | some p =>
      (m.type == "purchase" || m.type == "sale") &&
      decide (0 < m.quantity) &&
      (m.type != "sale" || decide (m.quantity ≤ p.quantity)) &&
      validMovesB (applyMove pid st m) pid ms

/-- Total quantity of the moves of one type. -/
def sumOfType (moves : List Move) (t : String) : Int :=
  ((moves.filter (fun m => m.type == t)).map (fun m => m.quantity)).sum

/-- Concrete state for the claim C1 witness: one product, stock 10, empty
ledger. -/
def stateC1 : State :=
  ⟨[⟨1, "Widget", "W1", "", 0, 0, 10, 10, none, none, 0⟩], [], [], [], 2, 1, 1⟩

/-- Two successful movements for the claim C1 witness. -/
def movesC1 : List Move :=
  [⟨"purchase", 5, "", none, 0⟩, ⟨"sale", 3, "", none, 0⟩]

/-- State used to refute claim C2 as stated: a product driven to stock -1 by
a movement whose action string is not recognized (reachable per claim C10). -/
def stateC2 : State :=
  (update_stock
    (add_product emptyState "Widget" "W1" "" 0 0 0 10 none none none 0).2
    1 "adjust" 1 "" none 0).2

/-- Concrete state for the claim C6 witness: two products with distinct
SKUs. -/
def stateC6 : State :=
  ⟨[⟨1, "Alpha", "A1", "", 0, 0, 0, 10, none, none, 0⟩,
    ⟨2, "Beta", "B1", "", 0, 0, 0, 10, none, none, 0⟩], [], [], [], 3, 1, 1⟩

/-- Form used by the claim C6 witness: renames product 1's SKU to B1. -/
def formC6 : ProductForm := ⟨"Alpha", "B1", "", 0, 0, 10, none, none⟩

/-- Concrete state for the claim C7 counterexample: two products whose names
are in alphabetical order. -/
def stateC7 : State :=
  ⟨[⟨1, "Alpha", "A1", "", 0, 0, 0, 10, none, none, 0⟩,
    ⟨2, "Beta", "B1", "", 0, 0, 0, 10, none, none, 0⟩], [], [], [], 3, 1, 1⟩

/-- State for the claim C4 failing input: the only transaction is one
purchase of quantity 5 created today, at the moment of the dashboard call
(timestamp 30*86400 + 100, i.e. day 30). -/
def stateC4 : State :=
  ⟨[⟨1, "Widget", "W1", "", 0, 0, 5, 10, none, none, 0⟩], [], [],
    [⟨1, "purchase", 5, "", none, 30 * 86400 + 100⟩], 2, 1, 1⟩

/-- Concrete catalog for the claim C8 counterexample: one product with SKU
"DUP". -/
def stateC8 : State :=
  ⟨[⟨1, "Old", "DUP", "", 0, 0, 0, 10, none, none, 0⟩], [], [], [], 2, 1, 1⟩

/-- Lookup of the (quantity, prices) cell triple by SKU in a projected
table. -/
def viewOf (l : List (String × Int × Rat × Rat)) (s : String) :
    Option (Int × Rat × Rat) :=
  (l.find? (fun x => x.1 == s)).map (fun x => x.2)

/-- Concrete catalog instantiating the amended claim C9: two products with
distinct clean SKUs; the round trip preserves the lookup of SKU W1. -/
def stateC9 : State :=
  ⟨[⟨1, "Widget", "W1", "", 5, 7, 3, 10, none, none, 0⟩,
    ⟨2, "Gadget", "G1", "", 2, 4, 6, 10, none, none, 0⟩], [], [], [], 3, 1, 1⟩

/-- A product found by primary key carries that key. -/
theorem getProduct_id {st : State} {pid : Nat} {p : Product}
    (hp : getProduct st pid = some p) : p.id = pid := by
  have := List.find?_some hp
  simpa using this

/-- A product found by primary key is in the table. -/
theorem getProduct_mem {st : State} {pid : Nat} {p : Product}
    (hp : getProduct st pid = some p) : p ∈ st.products :=
  List.mem_of_find?_eq_some hp

/-- Updating the row found by primary key is visible to the next lookup,
provided the update keeps the key. -/
theorem find?_replaceFirst (pid : Nat) (f : Product → Product)
    (hid : ∀ x, (f x).id = x.id) :
    ∀ (l : List Product) (p : Product),
      l.find? (fun q => q.id == pid) = some p →
      (replaceFirst pid f l).find? (fun q => q.id == pid) = some (f p) := by
  intro l
  induction l with
  | nil => intro p h; simp at h
  | cons a as ih =>
    intro p h
    cases hb : (a.id == pid) with
    | true =>
      simp only [List.find?_cons, hb] at h
      cases h
      simp [replaceFirst, hb, List.find?_cons, hid]
    | false =>
      simp only [List.find?_cons, hb] at h
      simp only [replaceFirst, hb, Bool.false_eq_true, if_false, List.find?_cons]
      exact ih p h

/-- Every row of the updated table is an original row or the image of the row
found by primary key. -/
theorem mem_replaceFirst (pid : Nat) (f : Product → Product) :
    ∀ (l : List Product) (x : Product), x ∈ replaceFirst pid f l →
      x ∈ l ∨ ∃ y, l.find? (fun q => q.id == pid) = some y ∧ x = f y := by
  intro l
  induction l with
  | nil => intro x h; simp [replaceFirst] at h
  | cons a as ih =>
    intro x h
    cases hb : (a.id == pid) with
    | true =>
      rw [replaceFirst, if_pos hb] at h
      rcases List.mem_cons.mp h with h1 | h1
      · refine Or.inr ⟨a, ?_, h1⟩
        simp [List.find?_cons, hb]
      · exact Or.inl (List.mem_cons_of_mem _ h1)
    | false =>
      rw [replaceFirst, if_neg (by simp [hb])] at h
      rcases List.mem_cons.mp h with h1 | h1
      · exact Or.inl (h1 ▸ List.mem_cons_self a as)
      · rcases ih x h1 with h2 | ⟨y, hy, hx⟩
        · exact Or.inl (List.mem_cons_of_mem _ h2)
        · refine Or.inr ⟨y, ?_, hx⟩
          simp only [List.find?_cons, hb]
          exact hy

/-- Success case of `update_stock`: with the product present, a positive
quantity, and enough stock when the action is exactly `sale`, the route
commits the quantity adjustment and appends one ledger row. -/
theorem update_stock_spec (st : State) (pid : Nat) (action : String) (q : Int)
    (notes : String) (uid : Option Nat) (now : Nat) (p : Product)
    (hp : getProduct st pid = some p) (hq : 0 < q)
    (hs : action = "sale" → q ≤ p.quantity) :
    update_stock st pid action q notes uid now =
      (.ok,
        { st with
          products := replaceFirst pid
            (fun r => { r with quantity :=
              r.quantity + (if action = "purchase" then q else -q) }) st.products,
          transactions := st.transactions ++
            [⟨p.id, if action = "purchase" then "purchase" else "sale",
              q, notes, uid, now⟩] }) := by
  have h1 : ¬ (q ≤ 0) := by omega
  have h2 : ¬ (action = "sale" ∧ p.quantity < q) := by
    rintro ⟨ha, hlt⟩; exact absurd (hs ha) (by omega)
  unfold update_stock
  rw [hp]
  simp only [if_neg h1, if_neg h2]

/-- Stock visible after a successful `update_stock`. -/
theorem stockOf_update_stock_ok (st : State) (pid : Nat) (action : String)
    (q : Int) (notes : String) (uid : Option Nat) (now : Nat) (p : Product)
    (hp : getProduct st pid = some p) (hq : 0 < q)
    (hs : action = "sale" → q ≤ p.quantity) :
    stockOf (update_stock st pid action q notes uid now).2 pid
      = some (p.quantity + (if action = "purchase" then q else -q)) := by
  rw [update_stock_spec st pid action q notes uid now p hp hq hs]
  have hf := find?_replaceFirst pid
    (fun r => { r with quantity :=
      r.quantity + (if action = "purchase" then q else -q) })
    (fun _ => rfl) st.products p hp
  simp [stockOf, getProduct, hf]

/-- Ledger count after a successful `update_stock`: exactly one row appended
for the product. -/
theorem txCount_update_stock_ok (st : State) (pid : Nat) (action : String)
    (q : Int) (notes : String) (uid : Option Nat) (now : Nat) (p : Product)
    (hp : getProduct st pid = some p) (hq : 0 < q)
    (hs : action = "sale" → q ≤ p.quantity) :
    txCountFor (update_stock st pid action q notes uid now).2 pid
      = txCountFor st pid + 1 := by
  rw [update_stock_spec st pid action q notes uid now p hp hq hs]
  simp [txCountFor, List.filter_append, getProduct_id hp]

theorem sumOfType_cons_pos (m : Move) (ms : List Move) (t : String)
    (h : m.type = t) : sumOfType (m :: ms) t = m.quantity + sumOfType ms t := by
  simp [sumOfType, List.filter_cons, h]

theorem sumOfType_cons_neg (m : Move) (ms : List Move) (t : String)
    (h : m.type ≠ t) : sumOfType (m :: ms) t = sumOfType ms t := by
  simp [sumOfType, List.filter_cons, h]

/-- Claim C1: for every product and every sequence of N `recordMovement`
calls on it that succeed (type in purchase/sale, positive quantity, each sale
within the stock at its moment), the final quantity equals the initial
quantity plus the purchase total minus the sale total, and the sequence
appends exactly one ledger row per call, so a product starting with no ledger
rows ends with exactly N. -/
theorem claim1_ledger (pid : Nat) (moves : List Move) :
    ∀ (st : State) (q : Int), stockOf st pid = some q →
      validMovesB st pid moves = true →
      stockOf (applyMoves st pid moves) pid
          = some (q + sumOfType moves "purchase" - sumOfType moves "sale") ∧
      txCountFor (applyMoves st pid moves) pid = txCountFor st pid + moves.length ∧
      (txCountFor st pid = 0 →
        txCountFor (applyMoves st pid moves) pid = moves.length) := by
  induction moves with
  | nil =>
    intro st q hq _
    refine ⟨?_, by simp [applyMoves], by simp [applyMoves]⟩
    simpa [applyMoves, sumOfType] using hq
  | cons m ms ih =>
    intro st q hq hv
    obtain ⟨p, hp⟩ : ∃ p, getProduct st pid = some p := by
      cases hgp : getProduct st pid with
      | none => simp [validMovesB, hgp] at hv
      | some p => exact ⟨p, rfl⟩
    simp only [validMovesB, hp, Bool.and_eq_true, Bool.or_eq_true, beq_iff_eq,
      bne_iff_ne, decide_eq_true_eq] at hv
    obtain ⟨⟨⟨htype, hqpos⟩, hsale⟩, hrest⟩ := hv
    have hs : m.type = "sale" → m.quantity ≤ p.quantity := by
      intro h
      rcases hsale with h1 | h1
      · exact absurd h h1
      · exact h1
    have hpq : p.quantity = q := by
      rw [stockOf, hp] at hq
      simpa using hq
    have hstock := stockOf_update_stock_ok st pid m.type m.quantity m.notes
      m.user_id m.created_at p hp hqpos hs
    have hcount := txCount_update_stock_ok st pid m.type m.quantity m.notes
      m.user_id m.created_at p hp hqpos hs
    have happly : applyMoves st pid (m :: ms)
        = applyMoves (applyMove pid st m) pid ms := by
      simp [applyMoves]
    obtain ⟨ih1, ih2, _⟩ := ih (applyMove pid st m)
      (p.quantity + (if m.type = "purchase" then m.quantity else -m.quantity))
      hstock hrest
    have hcount2 : txCountFor (applyMove pid st m) pid = txCountFor st pid + 1 :=
      hcount
    rw [happly]
    refine ⟨?_, ?_, ?_⟩
    · rw [ih1]
      rcases htype with ht | ht
      · rw [sumOfType_cons_pos m ms "purchase" ht,
          sumOfType_cons_neg m ms "sale" (by rw [ht]; decide)]
        rw [if_pos ht, hpq]
        congr 1
        omega
      · rw [sumOfType_cons_neg m ms "purchase" (by rw [ht]; decide),
          sumOfType_cons_pos m ms "sale" ht]
        rw [if_neg (by rw [ht]; decide), hpq]
        congr 1
        omega
    · rw [ih2, hcount2]
      simp [List.length_cons]
      omega
    · intro h0
      rw [ih2, hcount2, h0]
      simp [Nat.add_comm]

/-- Witness instantiating claim C1 at a concrete state and call sequence. -/
theorem claim1_witness :
    stockOf stateC1 1 = some 10 ∧ validMovesB stateC1 1 movesC1 = true ∧
    stockOf (applyMoves stateC1 1 movesC1) 1
      = some (10 + sumOfType movesC1 "purchase" - sumOfType movesC1 "sale") ∧
    txCountFor (applyMoves stateC1 1 movesC1) 1 = txCountFor stateC1 1 + movesC1.length :=
  ⟨by decide, by decide,
    (claim1_ledger 1 movesC1 stateC1 10 (by decide) (by decide)).1,
    (claim1_ledger 1 movesC1 stateC1 10 (by decide) (by decide)).2.1⟩

/-- Claim C2 counterexample: with stock -1, a `sale` request with quantity 0
(strictly greater than the stock) is rejected as an invalid quantity, not as
`InsufficientStock`, so the claim as stated fails; the state is still
unchanged. -/
theorem claim2_cex :
    stockOf stateC2 1 = some (-1) ∧
    (update_stock stateC2 1 "sale" 0 "" none 0)
      = (StockResult.invalidQuantity, stateC2) ∧
    StockResult.invalidQuantity ≠ StockResult.insufficientStock := by
  refine ⟨by decide, by decide, by decide⟩

/-- Claim C2 (amended): for every state in which the product's quantity is
non-negative, a `sale` call with quantity strictly greater than that stock
returns `InsufficientStock` and leaves the state entirely unchanged. -/
theorem claim2_amended (st : State) (pid : Nat) (q : Int) (notes : String)
    (uid : Option Nat) (now : Nat) (p : Product)
    (hp : getProduct st pid = some p) (hnn : 0 ≤ p.quantity)
    (hgt : p.quantity < q) :
    update_stock st pid "sale" q notes uid now = (.insufficientStock, st) := by
  have h1 : ¬ (q ≤ 0) := by omega
  have h2 : "sale" = "sale" ∧ p.quantity < q := ⟨rfl, hgt⟩
  unfold update_stock
  rw [hp]
  simp only [if_neg h1]
  simp [hgt]

/-- Witness instantiating the amended claim C2 at a concrete state. -/
theorem claim2_witness :
    getProduct stateC1 1 = some ⟨1, "Widget", "W1", "", 0, 0, 10, 10, none, none, 0⟩ ∧
    update_stock stateC1 1 "sale" 11 "" none 0 = (.insufficientStock, stateC1) :=
  ⟨by decide,
    claim2_amended stateC1 1 11 "" none 0
      ⟨1, "Widget", "W1", "", 0, 0, 10, 10, none, none, 0⟩
      (by decide) (by decide) (by decide)⟩

/-- Claim C10: for every stock-movement request whose action is any string
other than `purchase` and whose quantity is positive (with the sufficiency
guard applying only when the action is exactly `sale`), the operation behaves
as a sale: it succeeds, decrements the product's quantity by the requested
amount — possibly below zero — and appends a ledger row of type `sale`. -/
theorem claim10_sale_fallthrough (st : State) (pid : Nat) (action : String)
    (q : Int) (notes : String) (uid : Option Nat) (now : Nat) (p : Product)
    (hp : getProduct st pid = some p) (hact : action ≠ "purchase") (hq : 0 < q)
    (hs : action = "sale" → q ≤ p.quantity) :
    (update_stock st pid action q notes uid now).1 = StockResult.ok ∧
    stockOf (update_stock st pid action q notes uid now).2 pid
      = some (p.quantity - q) ∧
    (update_stock st pid action q notes uid now).2.transactions
      = st.transactions ++ [⟨p.id, "sale", q, notes, uid, now⟩] := by
  have hspec := update_stock_spec st pid action q notes uid now p hp hq hs
  have hstock := stockOf_update_stock_ok st pid action q notes uid now p hp hq hs
  refine ⟨by rw [hspec], ?_, ?_⟩
  · rw [hstock, if_neg hact, sub_eq_add_neg]
  · rw [hspec]
    simp [if_neg hact]

/-- Witness instantiating claim C10: an unrecognized action ("adjust") with
quantity greater than the stock succeeds and drives the quantity to -1. -/
theorem claim10_witness :
    getProduct stateC1 1 = some ⟨1, "Widget", "W1", "", 0, 0, 10, 10, none, none, 0⟩ ∧
    (update_stock stateC1 1 "adjust" 11 "" none 0).1 = StockResult.ok ∧
    stockOf (update_stock stateC1 1 "adjust" 11 "" none 0).2 1 = some (-1) ∧
    (update_stock stateC1 1 "adjust" 11 "" none 0).2.transactions
      = stateC1.transactions ++ [⟨1, "sale", 11, "", none, 0⟩] :=
  ⟨by decide,
    (claim10_sale_fallthrough stateC1 1 "adjust" 11 "" none 0
      ⟨1, "Widget", "W1", "", 0, 0, 10, 10, none, none, 0⟩
      (by decide) (by decide) (by decide) (by decide)).1,
    (claim10_sale_fallthrough stateC1 1 "adjust" 11 "" none 0
      ⟨1, "Widget", "W1", "", 0, 0, 10, 10, none, none, 0⟩
      (by decide) (by decide) (by decide) (by decide)).2.1,
    (claim10_sale_fallthrough stateC1 1 "adjust" 11 "" none 0
      ⟨1, "Widget", "W1", "", 0, 0, 10, 10, none, none, 0⟩
      (by decide) (by decide) (by decide) (by decide)).2.2⟩

/-- Claim C3 counterexample: a movement with the unrecognized action
"adjust" drives a stock of 0 to -1, and `add_product` accepts a negative
initial quantity, so non-negativity of `Product.quantity` is not preserved by
every public operation as claimed. -/
theorem claim3_cex :
    (∃ p ∈ ((update_stock
        (add_product emptyState "Widget" "W1" "" 0 0 0 10 none none none 0).2
        1 "adjust" 1 "" none 0).2).products, p.quantity < 0) ∧
    (∃ p ∈ (add_product emptyState "Gadget" "G1" "" 0 0 (-5) 10
        none none none 0).2.products, p.quantity < 0) := by
  refine ⟨?_, ?_⟩ <;> decide

/-- Claim C3 (amended): non-negativity of every product's quantity is
preserved by product creation whenever the supplied initial quantity is
non-negative, and by every stock movement whose action value is `purchase` or
`sale`. -/
theorem claim3_nonneg_preserved :
    (∀ (st : State) (name sku d : String) (pp sp : Rat) (qty rl : Int)
        (cid sid uid : Option Nat) (now : Nat), 0 ≤ qty →
        (∀ p ∈ st.products, 0 ≤ p.quantity) →
        ∀ p ∈ (add_product st name sku d pp sp qty rl cid sid uid now).2.products,
          0 ≤ p.quantity) ∧
    (∀ (st : State) (pid : Nat) (action : String) (qty : Int) (notes : String)
        (uid : Option Nat) (now : Nat),
        (action = "purchase" ∨ action = "sale") →
        (∀ p ∈ st.products, 0 ≤ p.quantity) →
        ∀ p ∈ (update_stock st pid action qty notes uid now).2.products,
          0 ≤ p.quantity) := by
  constructor
  · intro st name sku d pp sp qty rl cid sid uid now hqty hinv p hp
    unfold add_product at hp
    by_cases hdup : st.products.any (fun r => r.sku == sku) = true
    · rw [if_pos hdup] at hp
      exact hinv p hp
    · rw [if_neg hdup] at hp
      simp only [List.mem_append, List.mem_singleton] at hp
      rcases hp with h | h
      · exact hinv p h
      · rw [h]
        exact hqty
  · intro st pid action qty notes uid now hact hinv p hp
    unfold update_stock at hp
    cases hg : getProduct st pid with
    | none =>
      rw [hg] at hp
      exact hinv p hp
    | some prod =>
      rw [hg] at hp
      by_cases h1 : qty ≤ 0
      · simp only [if_pos h1] at hp
        exact hinv p hp
      · simp only [if_neg h1] at hp
        by_cases h2 : action = "sale" ∧ prod.quantity < qty
        · simp only [if_pos h2] at hp
          exact hinv p hp
        · simp only [if_neg h2] at hp
          have hp' : p ∈ replaceFirst pid
              (fun r => { r with quantity :=
                r.quantity + (if action = "purchase" then qty else -qty) })
              st.products := by
            simpa using hp
          rcases mem_replaceFirst pid _ st.products p hp' with hin | ⟨y, hy, hxy⟩
          · exact hinv p hin
          · have hyprod : y = prod := by
              have : some y = some prod := by
                rw [← hy, ← hg]
                rfl
              exact Option.some.inj this
            have hyq : 0 ≤ y.quantity := hinv y (List.mem_of_find?_eq_some hy)
            rw [hxy]
            show 0 ≤ y.quantity + (if action = "purchase" then qty else -qty)
            rcases hact with ha | ha
            · rw [if_pos ha]
              omega
            · rw [if_neg (by rw [ha]; decide)]
              have hle : qty ≤ prod.quantity := by
                by_contra hcon
                exact h2 ⟨ha, by omega⟩
              rw [hyprod]
              omega

/-- Witness instantiating the amended claim C3: creating a product with
initial stock 3 and selling 2 keeps every quantity non-negative. -/
theorem claim3_witness :
    (∀ p ∈ (add_product emptyState "Widget" "W1" "" 0 0 3 10
        none none none 0).2.products, 0 ≤ p.quantity) ∧
    (∀ p ∈ (update_stock
        (add_product emptyState "Widget" "W1" "" 0 0 3 10 none none none 0).2
        1 "sale" 2 "" none 0).2.products, 0 ≤ p.quantity) := by
  have h1 := claim3_nonneg_preserved.1 emptyState "Widget" "W1" "" 0 0 3 10
    none none none 0 (by decide) (by intro p hp; simp [emptyState] at hp)
  exact ⟨h1, claim3_nonneg_preserved.2 _ 1 "sale" 2 "" none 0 (Or.inr rfl) h1⟩

theorem upsertCategory_products (st : State) (n : String) :
    (upsertCategory st n).2.products = st.products := by
  unfold upsertCategory
  split
  · rfl
  · split <;> rfl

theorem upsertSupplier_products (st : State) (n : String) :
    (upsertSupplier st n).2.products = st.products := by
  unfold upsertSupplier
  split
  · rfl
  · split <;> rfl

theorem upsertSupplier_categories (st : State) (n : String) :
    (upsertSupplier st n).2.categories = st.categories := by
  unfold upsertSupplier
  split
  · rfl
  · split <;> rfl

theorem upsertCategory_mono (st : State) (n : String) (c : Category)
    (hc : c ∈ st.categories) : c ∈ (upsertCategory st n).2.categories := by
  unfold upsertCategory
  split
  · exact hc
  · split
    · exact hc
    · exact List.mem_append_left _ hc

theorem upsertCategory_mem (st : State) (n : String) (hn : n ≠ "") :
    ∃ c ∈ (upsertCategory st n).2.categories, c.name = n := by
  unfold upsertCategory
  rw [if_neg hn]
  cases hf : st.categories.find? (fun c => c.name == n) with
  | some c =>
    simp only [hf]
    exact ⟨c, List.mem_of_find?_eq_some hf, by simpa using List.find?_some hf⟩
  | none =>
    simp only [hf]
    exact ⟨⟨st.nextCategoryId, n, ""⟩, by simp, rfl⟩

/-- Every row of the updated category table is an original row or the image
of the row found by primary key. -/
theorem mem_replaceFirstCat (id : Nat) (f : Category → Category) :
    ∀ (l : List Category) (x : Category), x ∈ replaceFirstCat id f l →
      x ∈ l ∨ ∃ y, l.find? (fun q => q.id == id) = some y ∧ x = f y := by
  intro l
  induction l with
  | nil => intro x h; simp [replaceFirstCat] at h
  | cons a as ih =>
    intro x h
    cases hb : (a.id == id) with
    | true =>
      rw [replaceFirstCat, if_pos hb] at h
      rcases List.mem_cons.mp h with h1 | h1
      · refine Or.inr ⟨a, ?_, h1⟩
        simp [List.find?_cons, hb]
      · exact Or.inl (List.mem_cons_of_mem _ h1)
    | false =>
      rw [replaceFirstCat, if_neg (by simp [hb])] at h
      rcases List.mem_cons.mp h with h1 | h1
      · exact Or.inl (h1 ▸ List.mem_cons_self a as)
      · rcases ih x h1 with h2 | ⟨y, hy, hx⟩
        · exact Or.inl (List.mem_cons_of_mem _ h2)
        · refine Or.inr ⟨y, ?_, hx⟩
          simp only [List.find?_cons, hb]
          exact hy

/-- Renaming the category found by primary key keeps category names pairwise
distinct, provided the new name is its old name or fresh. -/
theorem nodup_replaceFirstCat (id : Nat) (nm d : String) :
    ∀ (l : List Category),
      (l.map Category.name).Nodup →
      (∀ c0, l.find? (fun x => x.id == id) = some c0 →
        nm = c0.name ∨ (∀ c ∈ l, c.name ≠ nm)) →
      ((replaceFirstCat id
          (fun c => { c with name := nm, description := d }) l).map
        Category.name).Nodup := by
  intro l
  induction l with
  | nil =>
    intro _ _
    simp [replaceFirstCat]
  | cons a as ih =>
    intro h hcond
    rw [List.map_cons, List.nodup_cons] at h
    obtain ⟨hna, hnd⟩ := h
    cases hid : (a.id == id) with
    | true =>
      rw [replaceFirstCat, if_pos hid, List.map_cons, List.nodup_cons]
      refine ⟨?_, hnd⟩
      show nm ∉ as.map Category.name
      rcases hcond a (by simp [List.find?_cons, hid]) with hnm | hfresh
      · rw [hnm]
        exact hna
      · intro hmem
        obtain ⟨c, hc, hcn⟩ := List.mem_map.mp hmem
        exact hfresh c (List.mem_cons_of_mem _ hc) hcn
    | false =>
      rw [replaceFirstCat, if_neg (by simp [hid]), List.map_cons, List.nodup_cons]
      have hfind : ∀ c0, as.find? (fun x => x.id == id) = some c0 →
          (a :: as).find? (fun x => x.id == id) = some c0 := by
        intro c0 hc0
        simp only [List.find?_cons, hid]
        exact hc0
      refine ⟨?_, ih hnd ?_⟩
      · intro hmem
        obtain ⟨c, hc, hcn⟩ := List.mem_map.mp hmem
        rcases mem_replaceFirstCat id _ as c hc with hin | ⟨y, hy, hcy⟩
        · exact hna (hcn ▸ List.mem_map_of_mem Category.name hin)
        · have hcnm : c.name = nm := by rw [hcy]
          rcases hcond y (hfind y hy) with hnm | hfresh
          · apply hna
            rw [← hcn, hcnm, hnm]
            exact List.mem_map_of_mem Category.name (List.mem_of_find?_eq_some hy)
          · exact hfresh a (List.mem_cons_self a as) (hcn.symm.trans hcnm)
      · intro c0 hc0
        rcases hcond c0 (hfind c0 hc0) with hnm | hfresh
        · exact Or.inl hnm
        · exact Or.inr (fun c hc => hfresh c (List.mem_cons_of_mem a hc))

/-- The import upsert only ever adds a category name that is absent, keeping
names pairwise distinct. -/
theorem upsertCategory_nodup (st : State) (n : String)
    (h : (st.categories.map Category.name).Nodup) :
    ((upsertCategory st n).2.categories.map Category.name).Nodup := by
  unfold upsertCategory
  by_cases hn : n = ""
  · rw [if_pos hn]
    exact h
  · rw [if_neg hn]
    cases hf : st.categories.find? (fun c => c.name == n) with
    | some c =>
      simp only [hf]
      exact h
    | none =>
      simp only [hf]
      rw [List.find?_eq_none] at hf
      simp only [List.map_append, List.map_cons, List.map_nil]
      rw [List.nodup_append]
      refine ⟨h, List.nodup_singleton _, ?_⟩
      intro a ha hb
      rw [List.mem_singleton] at hb
      obtain ⟨c, hc, hcn⟩ := List.mem_map.mp ha
      have hcne : c.name ≠ n := by simpa using hf c hc
      exact hcne (hcn.trans hb)

/-- Claim C5 counterexample: two consecutive `add_supplier` calls with the
same name both succeed, leaving two suppliers named "Acme"; the second call is
not rejected and a record is added, so supplier-name uniqueness fails. -/
theorem claim5_cex :
    ((add_supplier (add_supplier emptyState "Acme" "" "" "" "")
        "Acme" "" "" "" "").suppliers.filter (fun s => s.name == "Acme")).length
      = 2 := by decide

/-- Claim C5 (amended): category-name uniqueness holds at every point in
time — a createCategory call with an existing name is rejected with
`DuplicateName` and adds no record, and no other modelled operation
introduces a second category with an existing name: creation and the import
upsert add only fresh names, a category rename re-checks the target name
first, and the product, stock and supplier operations leave the category
table untouched.  Supplier creation, in contrast, performs no duplicate-name
check and always appends the submitted supplier, so a second supplier with
an existing name can be introduced. -/
theorem claim5_amended :
    (∀ (st : State) (name d : String), (∃ c ∈ st.categories, c.name = name) →
        add_category st name d = (.duplicateName, st)) ∧
    (∀ (st : State) (name d : String),
        (st.categories.map Category.name).Nodup →
        ((add_category st name d).2.categories.map Category.name).Nodup) ∧
    (∀ (st : State) (id : Nat) (name d : String),
        (st.categories.map Category.name).Nodup →
        ((edit_category st id name d).2.categories.map Category.name).Nodup) ∧
    (∀ (acc : ImportOutcome) (row : Row),
        (acc.state.categories.map Category.name).Nodup →
        ((importRow acc row).state.categories.map Category.name).Nodup) ∧
    (∀ (st : State) (name sku d : String) (pp sp : Rat) (qty rl : Int)
        (cid sid uid : Option Nat) (now : Nat),
        (add_product st name sku d pp sp qty rl cid sid uid now).2.categories
          = st.categories) ∧
    (∀ (st : State) (id : Nat) (form : ProductForm),
        (edit_product st id form).2.categories = st.categories) ∧
    (∀ (st : State) (pid : Nat) (action : String) (q : Int) (notes : String)
        (uid : Option Nat) (now : Nat),
        (update_stock st pid action q notes uid now).2.categories
          = st.categories) ∧
    (∀ (st : State) (name cn em ph ad : String),
        (add_supplier st name cn em ph ad).categories = st.categories) ∧
    (∀ (st : State) (name cn em ph ad : String),
        (add_supplier st name cn em ph ad).suppliers
          = st.suppliers ++ [⟨st.nextSupplierId, name, cn, em, ph, ad⟩]) := by
  refine ⟨?_, ?_, ?_, ?_, ?_, ?_, ?_, ?_, ?_⟩
  · rintro st name d ⟨c, hc, hcn⟩
    have hany : st.categories.any (fun r => r.name == name) = true := by
      rw [List.any_eq_true]
      exact ⟨c, hc, by simp [hcn]⟩
    unfold add_category
    rw [if_pos hany]
  · intro st name d h
    unfold add_category
    by_cases hdup : st.categories.any (fun c => c.name == name) = true
    · rw [if_pos hdup]
      exact h
    · rw [if_neg hdup]
      rw [Bool.not_eq_true, List.any_eq_false] at hdup
      simp only [List.map_append, List.map_cons, List.map_nil]
      rw [List.nodup_append]
      refine ⟨h, List.nodup_singleton _, ?_⟩
      intro a ha hb
      rw [List.mem_singleton] at hb
      obtain ⟨c, hc, hcn⟩ := List.mem_map.mp ha
      have hcne : c.name ≠ name := by simpa using hdup c hc
      exact hcne (hcn.trans hb)
  · intro st id name d h
    unfold edit_category
    cases hg : getCategory st id with
    | none =>
      exact h
    | some category =>
      by_cases hc : name ≠ category.name ∧
          st.categories.any (fun c => c.name == name) = true
      · simp only [if_pos hc]
        exact h
      · simp only [if_neg hc]
        apply nodup_replaceFirstCat id name d st.categories h
        intro c0 hc0
        have hc0cat : c0 = category := by
          have hsome : some category = some c0 := by
            rw [← hg]
            exact hc0
          exact (Option.some.inj hsome).symm
        rcases not_and_or.mp hc with h1 | h2
        · left
          rw [hc0cat]
          exact not_ne_iff.mp h1
        · right
          intro c hcmem hcn
          rw [Bool.not_eq_true, List.any_eq_false] at h2
          have hcne : c.name ≠ name := by simpa using h2 c hcmem
          exact hcne hcn
  · intro acc row h
    unfold importRow
    by_cases h1 : strip row.sku = ""
    · simp only [h1, if_pos]
      exact h
    · simp only [if_neg h1]
      by_cases h2 : acc.state.products.any (fun p => p.sku == strip row.sku) = true
      · simp only [h2, if_true]
        exact h
      · simp only [if_neg h2]
        by_cases h3 : strip row.name = ""
        · simp only [h3, if_pos]
          exact h
        · simp only [if_neg h3]
          show (((upsertSupplier
              (upsertCategory acc.state (strip row.category)).2
              (strip row.supplier)).2.categories).map Category.name).Nodup
          rw [upsertSupplier_categories]
          exact upsertCategory_nodup _ _ h
  · intro st name sku d pp sp qty rl cid sid uid now
    unfold add_product
    split <;> rfl
  · intro st id form
    unfold edit_product
    cases hg : getProduct st id with
    | none => rfl
    | some p =>
      simp only
      split <;> rfl
  · intro st pid action q notes uid now
    unfold update_stock
    cases hg : getProduct st pid with
    | none => rfl
    | some p =>
      simp only
      split
      · rfl
      · split <;> rfl
  · intro st name cn em ph ad
    rfl
  · intro st name cn em ph ad
    rfl

/-- Witness instantiating the amended claim C5 at concrete states: the
duplicate category create is rejected, create and rename keep category names
distinct, and the supplier insert appends unconditionally. -/
theorem claim5_witness :
    add_category (add_category emptyState "Tools" "").2 "Tools" ""
      = (.duplicateName, (add_category emptyState "Tools" "").2) ∧
    (((add_category emptyState "Tools" "").2.categories.map
        Category.name).Nodup) ∧
    (((edit_category (add_category emptyState "Tools" "").2
        1 "Hardware" "").2.categories.map Category.name).Nodup) ∧
    (add_supplier emptyState "Acme" "" "" "" "").suppliers
      = emptyState.suppliers ++ [⟨1, "Acme", "", "", "", ""⟩] :=
  ⟨claim5_amended.1 (add_category emptyState "Tools" "").2 "Tools" ""
      ⟨⟨1, "Tools", ""⟩, by decide, rfl⟩,
    claim5_amended.2.1 emptyState "Tools" "" (by decide),
    claim5_amended.2.2.1 (add_category emptyState "Tools" "").2 1 "Hardware" ""
      (by decide),
    claim5_amended.2.2.2.2.2.2.2.2 emptyState "Acme" "" "" "" ""⟩

/-- Claim C6: an `edit_product` call that changes the SKU to one already
belonging to another product is rejected with `DuplicateSKU` and commits
nothing: the state, hence every field of the product, is unchanged. -/
theorem claim6_no_partial_effect (st : State) (id : Nat) (form : ProductForm)
    (p : Product) (hp : getProduct st id = some p) (hne : form.sku ≠ p.sku)
    (hdup : ∃ r ∈ st.products, r.sku = form.sku) :
    edit_product st id form = (.duplicateSKU, st) := by
  obtain ⟨r, hr, hrs⟩ := hdup
  have hany : st.products.any (fun x => x.sku == form.sku) = true := by
    rw [List.any_eq_true]
    exact ⟨r, hr, by simp [hrs]⟩
  unfold edit_product
  rw [hp]
  simp only [if_pos (show form.sku ≠ p.sku ∧
    st.products.any (fun x => x.sku == form.sku) = true from ⟨hne, hany⟩)]

/-- Witness instantiating claim C6 at a concrete state. -/
theorem claim6_witness :
    getProduct stateC6 1 = some ⟨1, "Alpha", "A1", "", 0, 0, 0, 10, none, none, 0⟩ ∧
    edit_product stateC6 1 formC6 = (.duplicateSKU, stateC6) :=
  ⟨by decide,
    claim6_no_partial_effect stateC6 1 formC6
      ⟨1, "Alpha", "A1", "", 0, 0, 0, 10, none, none, 0⟩
      (by decide) (by decide)
      ⟨⟨2, "Beta", "B1", "", 0, 0, 0, 10, none, none, 0⟩, by decide, rfl⟩⟩

/-- Claim C7 counterexample: with the unknown sort field "flavor" and
order=desc, the listing comes back name-descending, not name-ascending as
claimed. -/
theorem claim7_cex :
    productsList stateC7 "" none "flavor" "desc"
      = [⟨2, "Beta", "B1", "", 0, 0, 0, 10, none, none, 0⟩,
         ⟨1, "Alpha", "A1", "", 0, 0, 0, 10, none, none, 0⟩] ∧
    productsList stateC7 "" none "flavor" "desc"
      ≠ [⟨1, "Alpha", "A1", "", 0, 0, 0, 10, none, none, 0⟩,
         ⟨2, "Beta", "B1", "", 0, 0, 0, 10, none, none, 0⟩] := by
  refine ⟨?_, ?_⟩ <;> decide

/-- Claim C7 (amended): a product-listing request whose sort parameter names
an unknown (non-whitelisted) Product field behaves exactly as sorting by
name, with the direction still taken from the order parameter (descending
when order=desc, ascending otherwise). -/
theorem claim7_amended (st : State) (search : String) (cid : Option Nat)
    (sort_by order : String) (h : sort_by ∉ productFields) :
    productsList st search cid sort_by order
      = productsList st search cid "name" order := by
  have hkey : keyLe sort_by = keyLe "name" := by
    simp only [productFields, List.mem_cons, List.not_mem_nil, or_false,
      not_or] at h
    obtain ⟨h1, h2, h3, h4, h5, h6, h7, h8, h9, h10, h11⟩ := h
    funext a b
    simp only [keyLe, if_neg h1, if_neg h3, if_neg h4, if_neg h5, if_neg h6,
      if_neg h7, if_neg h8, if_neg h9, if_neg h10, if_neg h11]
    rfl
  unfold productsList
  rw [hkey]

/-- Witness instantiating the amended claim C7: sorting by the unknown field
"flavor" equals sorting by name, also under order=desc. -/
theorem claim7_witness :
    ("flavor" ∉ productFields) ∧
    productsList stateC7 "" none "flavor" "desc"
      = productsList stateC7 "" none "name" "desc" :=
  ⟨by decide, claim7_amended stateC7 "" none "flavor" "desc" (by decide)⟩

/-- Claim C4 evaluated at the failing input: the three sequences do have
length 30 and days without transactions read 0, but the purchase of quantity
5 recorded today appears nowhere — the labels run from day 0 (now - 30 days)
to day 29 (yesterday) and never include today (day 30), so the last
purchase-total element is 0 rather than the specified 5. -/
theorem claim4_dashboard_bug :
    (dashboard_stats (30 * 86400 + 100) stateC4).labels.length = 30 ∧
    (dashboard_stats (30 * 86400 + 100) stateC4).purchases.length = 30 ∧
    (dashboard_stats (30 * 86400 + 100) stateC4).sales.length = 30 ∧
    (dashboard_stats (30 * 86400 + 100) stateC4).purchases.getLast? = some 0 ∧
    dateOf (30 * 86400 + 100) ∉ (dashboard_stats (30 * 86400 + 100) stateC4).labels ∧
    (5 : Int) ∉ (dashboard_stats (30 * 86400 + 100) stateC4).purchases := by
  decide

/-- A blank-SKU row is skipped without an error message. -/
theorem importRow_blank_sku (acc : ImportOutcome) (row : Row)
    (h : strip row.sku = "") :
    importRow acc row = { acc with skipped := acc.skipped + 1 } := by
  unfold importRow
  simp only [h, if_pos]

/-- A duplicate-SKU row is skipped and its message recorded. -/
theorem importRow_dup (acc : ImportOutcome) (row : Row)
    (h1 : strip row.sku ≠ "")
    (h2 : acc.state.products.any (fun p => p.sku == strip row.sku) = true) :
    importRow acc row =
      { acc with
        skipped := acc.skipped + 1
        errors := acc.errors ++ [dupMsg (strip row.sku)] } := by
  unfold importRow
  simp only [if_neg h1, h2, if_true]

/-- A non-duplicate row with a blank Name is skipped without an error
message. -/
theorem importRow_blank_name (acc : ImportOutcome) (row : Row)
    (h1 : strip row.sku ≠ "")
    (h2 : acc.state.products.any (fun p => p.sku == strip row.sku) = false)
    (h3 : strip row.name = "") :
    importRow acc row = { acc with skipped := acc.skipped + 1 } := by
  have hb : ¬ (acc.state.products.any (fun p => p.sku == strip row.sku) = true) := by
    simp [h2]
  unfold importRow
  simp only [if_neg h1, if_neg hb, h3, if_pos]

/-- A fresh valid row is imported: the counters and errors advance as the
source does, exactly one product with the row's cells is appended, existing
categories are kept, and the row's category name is present afterwards. -/
theorem importRow_new (acc : ImportOutcome) (row : Row)
    (h1 : strip row.sku ≠ "")
    (h2 : acc.state.products.any (fun p => p.sku == strip row.sku) = false)
    (h3 : strip row.name ≠ "") :
    (importRow acc row).imported = acc.imported + 1 ∧
    (importRow acc row).skipped = acc.skipped ∧
    (importRow acc row).errors = acc.errors ∧
    (∃ p : Product,
      (importRow acc row).state.products = acc.state.products ++ [p] ∧
      p.sku = strip row.sku ∧ p.name = strip row.name ∧
      p.quantity = row.quantity ∧ p.purchase_price = row.purchase_price ∧
      p.selling_price = row.selling_price) ∧
    (∀ c ∈ acc.state.categories, c ∈ (importRow acc row).state.categories) ∧
    (strip row.category ≠ "" →
      ∃ c ∈ (importRow acc row).state.categories, c.name = strip row.category) := by
  have hb : ¬ (acc.state.products.any (fun p => p.sku == strip row.sku) = true) := by
    simp [h2]
  unfold importRow
  simp only [if_neg h1, if_neg hb, if_neg h3]
  refine ⟨trivial, trivial, trivial,
    ⟨_, by rw [upsertSupplier_products, upsertCategory_products], rfl, rfl, rfl, rfl, rfl⟩,
    ?_, ?_⟩
  · intro c hc
    show c ∈ (upsertSupplier (upsertCategory acc.state (strip row.category)).2
      (strip row.supplier)).2.categories
    rw [upsertSupplier_categories]
    exact upsertCategory_mono _ _ c hc
  · intro hcat
    show ∃ c ∈ (upsertSupplier (upsertCategory acc.state (strip row.category)).2
      (strip row.supplier)).2.categories, c.name = strip row.category
    rw [upsertSupplier_categories]
    exact upsertCategory_mem _ _ hcat

/-- Claim C8 counterexample: a row with blank Name whose SKU duplicates an
existing product is skipped WITH an error message (the duplicate check runs
before the Name check), contradicting that blank-Name rows are skipped
without an error message. -/
theorem claim8_cex :
    (import_products stateC8 [⟨"DUP", "", "", "", "", 0, 0, 0, 10⟩]).skipped = 1 ∧
    (import_products stateC8 [⟨"DUP", "", "", "", "", 0, 0, 0, 10⟩]).errors
      = [dupMsg "DUP"] ∧
    (import_products stateC8 [⟨"DUP", "", "", "", "", 0, 0, 0, 10⟩]).errors ≠ [] := by
  refine ⟨?_, ?_, ?_⟩ <;> decide

/-- Claim C8 (amended): importing a file with one valid new row (SKU "X1",
Name "Widget", Category "Tools") and one row whose SKU already exists yields
imported=1 and skipped=1, records the duplicate in the error messages,
creates exactly the one new product, and ensures a category named "Tools"
exists (created on the fly when absent).  Rows with blank SKU are skipped
without an error message, and rows with blank Name are skipped silently when
their SKU is not a duplicate (a blank-Name row whose SKU already exists is
recorded as a duplicate instead). -/
theorem claim8_import_scenario :
    (∀ (st : State) (row1 row2 : Row),
        row1.sku = "X1" → row1.name = "Widget" → row1.category = "Tools" →
        (∀ p ∈ st.products, p.sku ≠ "X1") →
        (∃ p ∈ st.products, p.sku = strip row2.sku) →
        strip row2.sku ≠ "" →
        (import_products st [row1, row2]).imported = 1 ∧
        (import_products st [row1, row2]).skipped = 1 ∧
        (import_products st [row1, row2]).errors = [dupMsg (strip row2.sku)] ∧
        (∃ p2 : Product,
          (import_products st [row1, row2]).state.products = st.products ++ [p2] ∧
          p2.sku = "X1" ∧ p2.name = "Widget") ∧
        (∃ c ∈ (import_products st [row1, row2]).state.categories,
          c.name = "Tools")) ∧
    (∀ (acc : ImportOutcome) (row : Row), strip row.sku = "" →
        importRow acc row = { acc with skipped := acc.skipped + 1 }) ∧
    (∀ (acc : ImportOutcome) (row : Row), strip row.sku ≠ "" →
        acc.state.products.any (fun p => p.sku == strip row.sku) = false →
        strip row.name = "" →
        importRow acc row = { acc with skipped := acc.skipped + 1 }) := by
  refine ⟨?_, importRow_blank_sku, importRow_blank_name⟩
  intro st row1 row2 hr1 hr2 hr3 h1 h2 h3
  have hstrip1 : strip row1.sku = "X1" := by rw [hr1]; decide
  have hstripn : strip row1.name = "Widget" := by rw [hr2]; decide
  have hstripc : strip row1.category = "Tools" := by rw [hr3]; decide
  have hs1 : strip row1.sku ≠ "" := by rw [hstrip1]; decide
  have hn1 : strip row1.name ≠ "" := by rw [hstripn]; decide
  have hdup1 : (⟨0, 0, [], st⟩ : ImportOutcome).state.products.any
      (fun p => p.sku == strip row1.sku) = false := by
    rw [List.any_eq_false]
    intro p hp
    simp [hstrip1, h1 p hp]
  obtain ⟨ha1, ha2, ha3, ⟨p2, hprod, hp2sku, hp2name, _, _, _⟩, _, hcat⟩ :=
    importRow_new ⟨0, 0, [], st⟩ row1 hs1 hdup1 hn1
  have hdup2 : (importRow ⟨0, 0, [], st⟩ row1).state.products.any
      (fun p => p.sku == strip row2.sku) = true := by
    rw [List.any_eq_true]
    obtain ⟨p, hp, hps⟩ := h2
    exact ⟨p, by rw [hprod]; exact List.mem_append_left _ hp, by simp [hps]⟩
  have himp2 := importRow_dup (importRow ⟨0, 0, [], st⟩ row1) row2 h3 hdup2
  have hfold : import_products st [row1, row2]
      = importRow (importRow ⟨0, 0, [], st⟩ row1) row2 := rfl
  refine ⟨?_, ?_, ?_, ?_, ?_⟩
  · rw [hfold, himp2]
    simpa using ha1
  · rw [hfold, himp2]
    simpa using ha2
  · rw [hfold, himp2]
    simp [ha3]
  · rw [hfold, himp2]
    exact ⟨p2, by simpa using hprod,
      by rw [hp2sku, hstrip1], by rw [hp2name, hstripn]⟩
  · rw [hfold, himp2]
    have := hcat (by rw [hstripc]; decide)
    rw [hstripc] at this
    simpa using this

/-- Concrete catalog and rows instantiating the amended claim C8. -/
theorem claim8_witness :
    (import_products stateC8
      [⟨"X1", "Widget", "", "Tools", "", 0, 0, 0, 10⟩,
       ⟨"DUP", "Other", "", "", "", 0, 0, 0, 10⟩]).imported = 1 ∧
    (import_products stateC8
      [⟨"X1", "Widget", "", "Tools", "", 0, 0, 0, 10⟩,
       ⟨"DUP", "Other", "", "", "", 0, 0, 0, 10⟩]).skipped = 1 ∧
    (import_products stateC8
      [⟨"X1", "Widget", "", "Tools", "", 0, 0, 0, 10⟩,
       ⟨"DUP", "Other", "", "", "", 0, 0, 0, 10⟩]).errors = [dupMsg (strip "DUP")] ∧
    (∃ p2 : Product,
      (import_products stateC8
        [⟨"X1", "Widget", "", "Tools", "", 0, 0, 0, 10⟩,
         ⟨"DUP", "Other", "", "", "", 0, 0, 0, 10⟩]).state.products
        = stateC8.products ++ [p2] ∧ p2.sku = "X1" ∧ p2.name = "Widget") ∧
    (∃ c ∈ (import_products stateC8
        [⟨"X1", "Widget", "", "Tools", "", 0, 0, 0, 10⟩,
         ⟨"DUP", "Other", "", "", "", 0, 0, 0, 10⟩]).state.categories,
      c.name = "Tools") :=
  claim8_import_scenario.1 stateC8
    ⟨"X1", "Widget", "", "Tools", "", 0, 0, 0, 10⟩
    ⟨"DUP", "Other", "", "", "", 0, 0, 0, 10⟩
    rfl rfl rfl (by decide)
    ⟨⟨1, "Old", "DUP", "", 0, 0, 0, 10, none, none, 0⟩, by decide, by decide⟩
    (by decide)

theorem skuView_viewOf (st : State) (s : String) :
    skuView st s = viewOf (st.products.map skuInfo) s := by
  unfold skuView viewOf
  rw [List.find?_map]
  have hpred : ((fun x : String × Int × Rat × Rat => x.1 == s) ∘ skuInfo)
      = (fun p : Product => p.sku == s) := rfl
  rw [hpred, Option.map_map]
  rfl

theorem insertLe_perm (le : Product → Product → Bool) (a : Product) :
    ∀ l : List Product, (insertLe le a l).Perm (a :: l)
  | [] => List.Perm.refl _
  | b :: bs => by
    unfold insertLe
    split
    · exact List.Perm.refl _
    · exact ((insertLe_perm le a bs).cons b).trans (List.Perm.swap a b bs)

theorem sortByLe_perm (le : Product → Product → Bool) :
    ∀ l : List Product, (sortByLe le l).Perm l
  | [] => List.Perm.refl _
  | a :: as => by
    unfold sortByLe
    exact (insertLe_perm le a (sortByLe le as)).trans ((sortByLe_perm le as).cons a)

/-- Importing rows projected from products with non-blank, trim-invariant,
pairwise fresh SKUs and names appends products with the same
(SKU, quantity, prices) cells, in order. -/
theorem import_good_rows (st0 : State) :
    ∀ (ps : List Product) (acc : ImportOutcome),
      (∀ p ∈ ps, strip p.sku = p.sku ∧ p.sku ≠ "" ∧
        strip p.name = p.name ∧ p.name ≠ "") →
      (ps.map Product.sku).Nodup →
      (∀ p ∈ ps, ∀ r ∈ acc.state.products, r.sku ≠ p.sku) →
      ((ps.map (rowOf st0)).foldl importRow acc).state.products.map skuInfo
        = acc.state.products.map skuInfo ++ ps.map skuInfo := by
  intro ps
  induction ps with
  | nil =>
    intro acc _ _ _
    simp
  | cons p ps ih =>
    intro acc hgood hnodup hdisj
    obtain ⟨hps, hpsne, hpn, hpnne⟩ := hgood p (List.mem_cons_self p ps)
    have hrsku : strip (rowOf st0 p).sku = p.sku := hps
    have hs1 : strip (rowOf st0 p).sku ≠ "" := by
      rw [hrsku]
      exact hpsne
    have hn1 : strip (rowOf st0 p).name ≠ "" := by
      show strip p.name ≠ ""
      rw [hpn]
      exact hpnne
    have hdup : acc.state.products.any
        (fun r => r.sku == strip (rowOf st0 p).sku) = false := by
      rw [List.any_eq_false]
      intro r hr
      simp [hrsku, hdisj p (List.mem_cons_self p ps) r hr]
    obtain ⟨_, _, _, ⟨p2, hprod, hp2sku, hp2name, hp2q, hp2pp, hp2sp⟩, _, _⟩ :=
      importRow_new acc (rowOf st0 p) hs1 hdup hn1
    have hinfo : skuInfo p2 = skuInfo p := by
      unfold skuInfo
      rw [hp2sku, hp2q, hp2pp, hp2sp, hrsku]
      rfl
    have hdisj2 : ∀ q ∈ ps,
        ∀ r ∈ (importRow acc (rowOf st0 p)).state.products, r.sku ≠ q.sku := by
      intro q hq r hr
      rw [hprod] at hr
      rcases List.mem_append.mp hr with h | h
      · exact hdisj q (List.mem_cons_of_mem p hq) r h
      · have hrp2 : r = p2 := by simpa using h
        rw [hrp2, hp2sku, hrsku]
        have hnin := (List.nodup_cons.mp hnodup).1
        intro hcon
        exact hnin (hcon ▸ List.mem_map_of_mem Product.sku hq)
    have hstep : (((p :: ps).map (rowOf st0)).foldl importRow acc)
        = ((ps.map (rowOf st0)).foldl importRow (importRow acc (rowOf st0 p))) := by
      simp [List.map_cons, List.foldl_cons]
    rw [hstep, ih (importRow acc (rowOf st0 p))
      (fun q hq => hgood q (List.mem_cons_of_mem p hq))
      (List.nodup_cons.mp hnodup).2 hdisj2]
    rw [hprod]
    simp [hinfo, List.map_append, List.append_assoc]

/-- Lookup by key is invariant under permutation when the target's keys are
distinct. -/
theorem viewOf_perm (l1 l2 : List (String × Int × Rat × Rat))
    (h : l1.Perm l2) (hnd : (l2.map Prod.fst).Nodup) (s : String) :
    viewOf l1 s = viewOf l2 s := by
  unfold viewOf
  cases h1 : l1.find? (fun x => x.1 == s) with
  | none =>
    rw [List.find?_eq_none] at h1
    have h2 : l2.find? (fun x => x.1 == s) = none := by
      rw [List.find?_eq_none]
      intro x hx
      exact h1 x (h.mem_iff.mpr hx)
    rw [h2]
  | some x =>
    have hxs : x.1 = s := by simpa using List.find?_some h1
    have hxmem : x ∈ l2 := h.mem_iff.mp (List.mem_of_find?_eq_some h1)
    cases h2 : l2.find? (fun x => x.1 == s) with
    | none =>
      rw [List.find?_eq_none] at h2
      exact absurd (by simp [hxs]) (h2 x hxmem)
    | some y =>
      have hys : y.1 = s := by simpa using List.find?_some h2
      have hymem : y ∈ l2 := List.mem_of_find?_eq_some h2
      have hxy : x = y :=
        List.inj_on_of_nodup_map hnd hxmem hymem (by rw [hxs, hys])
      rw [hxy]

/-- Claim C9 counterexample: a catalog whose one product has a blank SKU
(accepted by add_product) does not survive the round trip — the importer
skips the blank-SKU row, so the catalog comes back empty. -/
theorem claim9_cex :
    (add_product emptyState "Widget" "" "" 0 0 3 10 none none none 0).2.products.length = 1 ∧
    skuView (add_product emptyState "Widget" "" "" 0 0 3 10 none none none 0).2 ""
      = some (3, 0, 0) ∧
    (import_products emptyState (export_products
      (add_product emptyState "Widget" "" "" 0 0 3 10 none none none 0).2)).state.products.length = 0 ∧
    skuView (import_products emptyState (export_products
      (add_product emptyState "Widget" "" "" 0 0 3 10 none none none 0).2)).state ""
      = none := by
  refine ⟨?_, ?_, ?_, ?_⟩ <;> decide

/-- Claim C9 (amended): for every catalog whose products all have SKUs and
names that are non-blank and free of leading/trailing whitespace, with all
SKUs distinct, exporting the catalog and importing the result into the empty
catalog reproduces, for every SKU, the same lookup result: the same set of
SKUs and the same quantity, purchase price and selling price per SKU. -/
theorem claim9_roundtrip (st : State)
    (hgood : ∀ p ∈ st.products, strip p.sku = p.sku ∧ p.sku ≠ "" ∧
      strip p.name = p.name ∧ p.name ≠ "")
    (hnodup : (st.products.map Product.sku).Nodup) :
    ∀ s, skuView (import_products emptyState (export_products st)).state s
      = skuView st s := by
  intro s
  have hperm : (sortByLe (fun a b => strLe a.name b.name) st.products).Perm
      st.products := sortByLe_perm _ st.products
  have hgood2 : ∀ p ∈ sortByLe (fun a b => strLe a.name b.name) st.products,
      strip p.sku = p.sku ∧ p.sku ≠ "" ∧ strip p.name = p.name ∧ p.name ≠ "" :=
    fun p hp => hgood p (hperm.subset hp)
  have hnodup2 : ((sortByLe (fun a b => strLe a.name b.name) st.products).map
      Product.sku).Nodup :=
    ((hperm.map Product.sku).nodup_iff).mpr hnodup
  have hmain := import_good_rows st
    (sortByLe (fun a b => strLe a.name b.name) st.products)
    ⟨0, 0, [], emptyState⟩ hgood2 hnodup2
    (by intro p _ r hr; simp [emptyState] at hr)
  have hexp : import_products emptyState (export_products st)
      = ((sortByLe (fun a b => strLe a.name b.name) st.products).map
          (rowOf st)).foldl importRow ⟨0, 0, [], emptyState⟩ := rfl
  rw [skuView_viewOf, skuView_viewOf, hexp, hmain]
  have hnil : (⟨0, 0, [], emptyState⟩ : ImportOutcome).state.products.map skuInfo
      = [] := rfl
  rw [hnil, List.nil_append]
  refine viewOf_perm _ _ (hperm.map skuInfo) ?_ s
  have hkeys : (st.products.map skuInfo).map Prod.fst
      = st.products.map Product.sku := by
    rw [List.map_map]
    rfl
  rw [hkeys]
  exact hnodup

/-- Witness instantiating the amended claim C9 at a concrete catalog and
SKU. -/
theorem claim9_witness :
    skuView (import_products emptyState (export_products stateC9)).state "W1"
      = skuView stateC9 "W1" :=
  claim9_roundtrip stateC9 (by decide) (by decide) "W1"
